import Mathlib

/-!
Verification of the reactive dataflow engine in plottr's node.py.

The embedding models the engine of NodeBase (src/plottr/node.py):
nodes hold per-slot source state, an output dataset, dirty/running flags,
and two policy flags; run / setSourceData / the data setter / broadcastData
are mutually recursive through Qt signal connections, which we model as
explicit ordered connection lists and a fuel-indexed small-step executor.
Every node class in the source declares the single source slot list
sources = ['input'], so slot state is a single field and connection
receivers deliver into that slot; slot-name arguments are still checked
against the declared list exactly as the source does.

The extension point processData is, per the spec's purity contract
(section 4.5), a deterministic function of the current option values and
the current per-slot input data; it is a parameter compute of the
semantics.  Datasets are an abstract type V with a distinguished empty
dataset emptyV (the Python literal used by the data setter when the
assigned value is None); a Python value that may be None is Option V.

The DataSelector.processData transformation and NodeBase.asGrid are
modelled separately over a small labeled-dataset model with functional
n-dimensional arrays.  Methods of the dataset type itself (get_grid,
dependents, remove_unused_axes, validate) live in plottr/data/datadict.py,
which is not part of the sources here; those are modelled from the spec
and marked as such.
-/

namespace Plottr

/-- Declared source slots: every node class in node.py declares
sources = ['input']. -/
def nodeSources : List String := ["input"]

/-- Observable events, used to state ordering/emission claims:
comp n = node n's processData was invoked, emit n = node n's
dataProcessed signal fired (broadcastData), optsSig n = node n's
optionsUpdated signal fired. -/
inductive Ev
  | comp (n : Nat)
  | emit (n : Nat)
  | optsSig (n : Nat)
  deriving DecidableEq, Repr

/-- State of a single node (NodeBase.__init__): the 'input' slot's
upstream reference and last-received data, the policy flags, the
dirty/running flags, the output data (_data, None initially), the
node's options, and the explicit signal-connection lists:
deps = receivers of this node's dataProcessed signal (in connection
order), reqs = broadcastData targets of this node's dataRequested
signal (in connection order). -/
structure PNode (V O : Type) where
  inRef : Option Nat
  inData : Option V
  updateOnSource : Bool
  updateOnOptionChange : Bool
  uptodate : Bool
  running : Bool
  data : Option V
  opts : O
  deps : List Nat
  reqs : List Nat

/-- Whole-graph state: node states indexed by node id, plus the event log. -/
structure Sys (V O : Type) where
  nodes : Nat → PNode V O
  log : List Ev

/-- Fresh node as built by NodeBase.__init__ with the given options. -/
def initNode (o : O) : PNode V O :=
  { inRef := none, inData := none, updateOnSource := true,
    updateOnOptionChange := true, uptodate := false, running := false,
    data := none, opts := o, deps := [], reqs := [] }

/-- Update one node's state. -/
def updNode (s : Sys V O) (n : Nat) (f : PNode V O → PNode V O) : Sys V O :=
  { s with nodes := fun m => if m = n then f (s.nodes m) else s.nodes m }

/-- Record an event in the log; the log holds events most recent
first. -/
def addEv (s : Sys V O) (e : Ev) : Sys V O :=
  { s with log := e :: s.log }

/-- Operations of the mutually recursive engine core:
run n            = NodeBase.run on node n;
setSourceData n v = NodeBase.setSourceData(n, 'input', v) body after the
                   slot-name check (the form in which signal delivery
                   invokes it);
setData n v      = the data property setter (data = val);
broadcastData n  = NodeBase.broadcastData (emit dataProcessed);
emitList v ds    = delivery loop of a dataProcessed emission carrying
                   payload v to the ordered receivers ds;
reqList us       = delivery loop of a dataRequested emission to the
                   ordered broadcastData targets us. -/
inductive Op (V : Type)
  | run (n : Nat)
  | setSourceData (n : Nat) (v : Option V)
  | setData (n : Nat) (v : Option V)
  | broadcastData (n : Nat)
  | emitList (v : Option V) (ds : List Nat)
  | reqList (us : List Nat)

/-- Fuel-indexed executor for the engine core.  none = out of fuel
(the Python code has no such bound; all claims are stated about runs
that return, i.e. produce some state).  Mirrors NodeBase.run,
setSourceData, the data setter, and broadcastData line by line;
compute models processData per the purity contract. -/
def exec (emptyV : V) (compute : Nat → O → Option V → Option V) :
    Nat → Sys V O → Op V → Option (Sys V O)
  | 0, _, _ => none
  | fuel + 1, s, .run n =>
    if (s.nodes n).running then
      -- re-entrant branch: else: self._uptodate = False
      some (updNode s n fun nd => { nd with uptodate := false })
    else
      -- self._running = True
      let s1 := updNode s n fun nd => { nd with running := true }
      -- for n, s in self._sources.items(): if ref is not None: ref.run()
      (((s1.nodes n).inRef).elim (some s1)
        (fun r => exec emptyV compute fuel s1 (.run r))).bind fun s2 =>
      if (s2.nodes n).uptodate then
        -- up to date already: the running flag is left set
        some s2
      else
        -- self.data = self.processData()
        let v := compute n (s2.nodes n).opts (s2.nodes n).inData
        (exec emptyV compute fuel (addEv s2 (.comp n)) (.setData n v)).bind
          fun s3 =>
        -- self._uptodate = True; self._running = False
        some (updNode s3 n fun nd =>
          { nd with uptodate := true, running := false })
  | fuel + 1, s, .setSourceData n v =>
    -- self._sources[sourceName]['data'] = value; self._uptodate = False
    let s1 := updNode s n fun nd => { nd with inData := v, uptodate := false }
    -- if self._updateOnSource: self.run()
    if (s1.nodes n).updateOnSource then
      exec emptyV compute fuel s1 (.run n)
    else
      some s1
  | fuel + 1, s, .setData n v =>
    -- if val is None: val = \x7b\x7d ; self._data = val; self.broadcastData()
    let s1 := updNode s n fun nd => { nd with data := some (v.getD emptyV) }
    exec emptyV compute fuel s1 (.broadcastData n)
  | fuel + 1, s, .broadcastData n =>
    -- self.dataProcessed.emit(self._data): payload and receiver list are
    -- captured at emission time
    exec emptyV compute fuel (addEv s (.emit n))
      (.emitList (s.nodes n).data (s.nodes n).deps)
  | _ + 1, s, .emitList _ [] => some s
  | fuel + 1, s, .emitList v (d :: rest) =>
    (exec emptyV compute fuel s (.setSourceData d v)).bind fun s1 =>
      exec emptyV compute fuel s1 (.emitList v rest)
  | _ + 1, s, .reqList [] => some s
  | fuel + 1, s, .reqList (u :: rest) =>
    (exec emptyV compute fuel s (.broadcastData u)).bind fun s1 =>
      exec emptyV compute fuel s1 (.reqList rest)

/-- Error message raised by setSourceData and setSource for an
undeclared slot name. -/
def srcErr : String := "is not a recognized source."

/-- Top-level NodeBase.setSourceData(sourceName, value) including the
slot-name check.  Result: none = out of fuel; some (s, some e) = the
ValueError was raised (state unmodified); some (s, none) = normal
return with final state s. -/
def setSourceData (emptyV : V) (compute : Nat → O → Option V → Option V)
    (fuel : Nat) (s : Sys V O) (n : Nat) (sourceName : String)
    (v : Option V) : Option (Sys V O × Option String) :=
  if sourceName ∉ nodeSources then
    some (s, some srcErr)
  else
    (exec emptyV compute fuel s (.setSourceData n v)).map fun s1 => (s1, none)

/-- Disconnect step of NodeBase.setSource: if a previous upstream is
referenced, remove its dataProcessed connection(s) to this node and this
node's dataRequested connection(s) to it (Qt disconnect removes every
matching connection). -/
def disconnectOld (s : Sys V O) (n : Nat) : Sys V O :=
  match (s.nodes n).inRef with
  | none => s
  | some old =>
    updNode (updNode s old fun nd => { nd with deps := nd.deps.filter (· ≠ n) })
      n fun nd => { nd with reqs := nd.reqs.filter (· ≠ old) }

/-- Connect step of NodeBase.setSource: store the new upstream
reference, connect its dataProcessed to this node's slot receiver, and
connect this node's dataRequested to its broadcastData. -/
def connectNew (s1 : Sys V O) (n r : Nat) : Sys V O :=
  updNode (updNode (updNode s1 n fun nd => { nd with inRef := some r })
      r fun nd => { nd with deps := nd.deps ++ [n] })
    n fun nd => { nd with reqs := nd.reqs ++ [r] }

/-- Top-level NodeBase.setSource(sourceName, ref) for node n wiring its
'input' slot to upstream r.  Checks the slot name; disconnects the
previous link(s), connects the new upstream, and finally emits
dataRequested, which delivers to every connected broadcastData target in
connection order. -/
def setSource (emptyV : V) (compute : Nat → O → Option V → Option V)
    (fuel : Nat) (s : Sys V O) (n : Nat) (sourceName : String)
    (r : Nat) : Option (Sys V O × Option String) :=
  if sourceName ∉ nodeSources then
    some (s, some srcErr)
  else
    -- self.dataRequested.emit() delivers to every connected broadcastData
    (exec emptyV compute fuel (connectNew (disconnectOld s n) n r)
        (.reqList (((connectNew (disconnectOld s n) n r).nodes n).reqs))).map
      fun s5 => (s5, none)

/-- An option setter decorated with NodeBase.updateOption: stores the
value (f applied to the node's options), clears the up-to-date flag,
and, if recompute-on-option-change is enabled, emits optionsUpdated,
whose only connected slot (wired in NodeBase.__init__) is self.run. -/
def updateOption (emptyV : V) (compute : Nat → O → Option V → Option V)
    (fuel : Nat) (s : Sys V O) (n : Nat) (f : O → O) : Option (Sys V O) :=
  let s1 := updNode s n fun nd => { nd with opts := f nd.opts, uptodate := false }
  if (s1.nodes n).updateOnOptionChange then
    exec emptyV compute fuel (addEv s1 (.optsSig n)) (.run n)
  else
    some s1

/-- Sequential execution of a list of engine operations. -/
def execSeq (emptyV : V) (compute : Nat → O → Option V → Option V)
    (fuel : Nat) (s : Sys V O) : List (Op V) → Option (Sys V O)
  | [] => some s
  | op :: rest =>
    (exec emptyV compute fuel s op).bind fun s1 =>
      execSeq emptyV compute fuel s1 rest

/-- Graph of freshly constructed nodes, all with the same options. -/
def freshSys (o : O) : Sys V O := { nodes := fun _ => initNode o, log := [] }

/-- Decides whether the first occurrence of event a precedes every
occurrence of event b in a log. -/
def comesBefore (a b : Ev) : List Ev → Bool
  | [] => false
  | e :: r => if e = b then false else if e = a then r.contains b else comesBefore a b r

/-- Compute functions for the three-node chain A(0) → B(1) → C(2):
A passes its slot data through unchanged, B and C apply the given
functions to their slot data. -/
def chainCompute (fB fC : Option V → V) : Nat → Unit → Option V → Option V :=
  fun n _ d =>
    match n with
    | 0 => d
    | 1 => some (fB d)
    | 2 => some (fC d)
    | _ => none

/-- Chain wired downstream-first: C's source is set to B before B's
source is set to A (both via setSource, with default flags, so
recompute-on-source-change is enabled on B and C). -/
def chainWiredDown (emptyV : V) (fB fC : Option V → V) : Option (Sys V Unit) :=
  (setSource emptyV (chainCompute fB fC) 15 (freshSys ()) 2 "input" 1).bind
    fun p1 =>
  (setSource emptyV (chainCompute fB fC) 15 p1.1 1 "input" 0).map (·.1)

/-- Data push (setSourceData of the value into A's slot, which
triggers run) followed by an explicit run() on A, on the
downstream-first wired chain. -/
def chainFinalDown (emptyV : V) (fB fC : Option V → V) (v : V) :
    Option (Sys V Unit) :=
  (chainWiredDown emptyV fB fC).bind fun s =>
  (setSourceData emptyV (chainCompute fB fC) 15 s 0 "input" (some v)).bind
    fun p =>
  exec emptyV (chainCompute fB fC) 15 p.1 (.run 0)

/-- Events recorded by the push-and-run phase on the downstream-first
wired chain, in chronological order (the log holds events most recent
first, so these are the entries beyond the wiring-phase log, reversed). -/
def chainPushLog (emptyV : V) (fB fC : Option V → V) (v : V) : List Ev :=
  ((((chainFinalDown emptyV fB fC v).map Sys.log).getD []).take
    (((((chainFinalDown emptyV fB fC v).map Sys.log).getD []).length)
      - ((((chainWiredDown emptyV fB fC).map Sys.log).getD []).length))).reverse

/-- Concrete chain computes over Nat datasets: B adds 10, C adds 100 to
the slot value (empty dataset = 0). -/
def chainComputeNat : Nat → Unit → Option Nat → Option Nat :=
  chainCompute (fun d => 10 + d.getD 0) (fun d => 100 + d.getD 0)

/-- Chain wired upstream-first: B's source is set to A before C's
source is set to B, then the value 7 is pushed into A and run() is
called on A. -/
def chainFinalUp : Option (Sys Nat Unit) :=
  (setSource 0 chainComputeNat 15 (freshSys ()) 1 "input" 0).bind fun p1 =>
  (setSource 0 chainComputeNat 15 p1.1 2 "input" 1).bind fun p2 =>
  (setSourceData 0 chainComputeNat 15 p2.1 0 "input" (some 7)).bind fun p3 =>
  exec 0 chainComputeNat 15 p3.1 (.run 0)

/-- Identity compute over Nat datasets with trivial options, for
concrete witnesses. -/
def computeId : Nat → Unit → Option Nat → Option Nat := fun _ _ d => d

/-- System of fresh nodes over Nat datasets. -/
def sysFresh : Sys Nat Unit := freshSys ()

/-- System of nodes all marked running, for re-entrancy witnesses. -/
def sysRunning : Sys Nat Unit :=
  { nodes := fun _ => { initNode () with running := true }, log := [] }

/-- System of fresh nodes already marked up-to-date, for no-op-run
witnesses. -/
def sysUptodate : Sys Nat Unit :=
  { nodes := fun _ => { initNode () with uptodate := true }, log := [] }

/-- Compute returning the option value plus the slot value, for
option-recomputation witnesses. -/
def computeOpt : Nat → Nat → Option Nat → Option Nat :=
  fun _ o d => some (o + d.getD 0)

/-- System of fresh nodes with Nat options. -/
def sysFreshNat : Sys Nat Nat := freshSys 0

/-- System whose nodes already hold the output 5, for the
no-equality-short-circuit witness. -/
def sysData5 : Sys Nat Unit :=
  { nodes := fun _ => { initNode () with data := some 5 }, log := [] }

/-- System for the rewiring witness: node 0 has recompute-on-source-
change disabled, node 1 holds the output 9. -/
def sysC7 : Sys Nat Unit :=
  { nodes := fun m =>
      if m = 0 then { initNode () with updateOnSource := false }
      else { initNode () with data := some 9 },
    log := [] }

/-! The labeled-dataset model for DataSelector.processData and
NodeBase.asGrid: functional n-dimensional arrays (shape plus a total
index function, mirroring the numpy operations used by the source) and
ordered name-to-record mappings. -/

/-- Functional n-dimensional array: a shape and a total multi-index
accessor. -/
structure NDArr (V : Type) where
  shape : List Nat
  get : List Nat → V

/-- Rank (numpy ndim) of an array. -/
def rank (a : NDArr V) : Nat := a.shape.length

/-- Per-axis basic slicing (numpy a[s2_0, s2_1, ...]): the i-th entry
none is the full slice, some (st, sp) is the slice st:sp (step 1,
clamped to the axis length as numpy does). -/
def applySlices (a : NDArr V) (sls : List (Option (Nat × Nat))) : NDArr V :=
  { shape := List.zipWith
      (fun d o => match o with
        | none => d
        | some sl => min sl.2 d - sl.1) a.shape sls,
    get := fun idx => a.get (List.zipWith
      (fun i o => match o with
        | none => i
        | some sl => sl.1 + i) idx sls) }

/-- Slice of a one-dimensional array (data[n]['values'][s]). -/
def slice1 (a : NDArr V) (sl : Nat × Nat) : NDArr V := applySlices a [some sl]

/-- Transposition (numpy a.transpose(perm)): new axis i is old axis
perm[i]. -/
def transposeA (a : NDArr V) (perm : List Nat) : NDArr V :=
  { shape := perm.map (fun j => a.shape.getD j 0),
    get := fun idx =>
      a.get ((List.range a.shape.length).map fun j => idx.getD (perm.indexOf j) 0) }

/-- Shape after numpy squeeze: every axis of length 1 is removed. -/
def squeezeShape (sh : List Nat) : List Nat := sh.filter (fun d => d ≠ 1)

/-- Re-inserts 0 coordinates at the squeezed positions. -/
def unsqueezeIdx : List Nat → List Nat → List Nat
  | [], _ => []
  | d :: ds, idx =>
    if d = 1 then 0 :: unsqueezeIdx ds idx
    else idx.headD 0 :: unsqueezeIdx ds idx.tail

/-- Squeeze (numpy np.squeeze): drops every length-1 axis. -/
def squeezeA (a : NDArr V) : NDArr V :=
  { shape := squeezeShape a.shape, get := fun idx => a.get (unsqueezeIdx a.shape idx) }

/-- Record of a labeled dataset: values array and dependency axes. -/
structure DDEntry (V : Type) where
  values : NDArr V
  axes : List String

/-- Labeled dataset: ordered mapping from names to records. -/
abbrev DD (V : Type) := List (String × DDEntry V)

/-- Lookup of a record by name. -/
def ddGet (d : DD V) (k : String) : Option (DDEntry V) :=
  (d.find? (fun p => p.1 = k)).map (·.2)

/-- Membership of a name. -/
def ddHas (d : DD V) (k : String) : Bool := d.any (fun p => p.1 = k)

/-- In-place update of a record, preserving order. -/
def ddSet (d : DD V) (k : String) (f : DDEntry V → DDEntry V) : DD V :=
  d.map (fun p => if p.1 = k then (p.1, f p.2) else p)

/-- Deletion of a name. -/
def ddDel (d : DD V) (k : String) : DD V := d.filter (fun p => p.1 ≠ k)

/-- Names of the dependent (non-axis) records.  Modelled from the spec:
DataDict.dependents lives in plottr/data/datadict.py, not among the
sources; per the spec (sections 3 and 6) dependents are the entries
carrying a dependency-axes list, as opposed to the axes themselves. -/
def dependents (d : DD V) : List String :=
  (d.filter (fun p => p.2.axes ≠ [])).map (·.1)

/-- Axis entries no longer referenced are removed.  Modelled from the
spec: GridDataDict.remove_unused_axes lives in plottr/data/datadict.py,
not among the sources; per the spec an axis entry is kept only while
some remaining dependent lists it. -/
def removeUnusedAxes (d : DD V) : DD V :=
  d.filter (fun p =>
    p.2.axes ≠ [] ∨ d.any (fun q => q.2.axes ≠ [] ∧ p.1 ∈ q.2.axes))

/-- Axis-consistency validation.  Modelled from the spec:
DataDict.validate lives in plottr/data/datadict.py, not among the
sources; per the spec (section 3) every name listed in a record's axes
must itself exist as a key. -/
def ddValidate (d : DD V) : Bool :=
  d.all (fun p => p.2.axes.all (fun a => ddHas d a))

/-- Conversion to grid form restricted to a subset of names.  Modelled
from the spec: DataDict.get_grid lives in plottr/data/datadict.py, not
among the sources; per the spec (section 6) it converts to grid form,
optionally restricted to the requested dependents, which keeps those
dependents and the axes they reference. -/
def getGrid (d : DD V) (names : Option (List String)) : DD V :=
  match names with
  | none => d
  | some ns =>
    let keep := ns ++ (d.filter (fun p => p.1 ∈ ns)).foldr
      (fun p acc => p.2.axes ++ acc) []
    d.filter (fun p => p.1 ∈ keep)

/-- Input of asGrid / processData: a grid dataset, a tabular dataset
(both respond to get_grid), or a value of unrecognized type. -/
inductive AGInput (V : Type)
  | gridD (d : DD V)
  | dataD (d : DD V)
  | other

/-- NodeBase.asGrid.  Result: error = the raised ValueError; ok none =
the Python function returned None (it falls off the end); ok (some d) =
a returned dataset.  makeCopy only affects aliasing and the model is
pure. -/
def asGrid (data : AGInput V) (names : Option (List String))
    (makeCopy : Bool) : Except String (Option (DD V)) :=
  match data with
  | .gridD d =>
    match names with
    | none => .ok none
    | some ns =>
      let deps := dependents d
      let remove := (d.filter (fun p => p.1 ∉ ns ∧ p.1 ∈ deps)).map (·.1)
      let d1 := d.filter (fun p => p.1 ∉ remove)
      let d2 := removeUnusedAxes d1
      if ddValidate d2 then .ok (some d2) else .error "validation failed"
  | .dataD d =>
    let g := getGrid d names
    if ddValidate g then .ok (some g) else .error "validation failed"
  | .other => .error "Data has unrecognized type."

/-- Options of DataSelector (grid is inherited from NodeBase; the
constructor overrides its default to True). -/
structure DSOpts where
  grid : Bool
  dataName : Option String
  slices : List (String × (Nat × Nat))
  axesOrder : List (String × Nat)
  squeeze : Bool

/-- Fills the None positions of the new axis order from the pool of
remaining old positions, in order. -/
def fillNone : List (Option Nat) → List Nat → List Nat
  | [], _ => []
  | some i :: rest, pool => i :: fillNone rest pool
  | none :: rest, pool => pool.headD 0 :: fillNone rest pool.tail

/-- Squeeze deletion loop of DataSelector.processData (lines 389-392):
Python iterates enumerate over the live axes list of the selected
record while deleting from it, so after a deletion at position p the
iterator continues at position p+1 of the shrunk list; the length
check against the pre-squeeze shape uses the loop counter.  A counter
beyond the pre-squeeze shape (IndexError in Python) stops the model. -/
def squeezeLoop (nm : String) (oldshape : List Nat) :
    Nat → Nat → DD V → DD V
  | 0, _, d => d
  | fuel + 1, p, d =>
    let axs := (((ddGet d nm).map (·.axes)).getD [])
    if p < axs.length then
      let n := axs.getD p ""
      match oldshape.get? p with
      | none => d
      | some len =>
        if len < 2 then
          let d1 := ddSet d nm (fun e => { e with axes := e.axes.eraseIdx p })
          squeezeLoop nm oldshape fuel (p + 1) (ddDel d1 n)
        else squeezeLoop nm oldshape fuel (p + 1) d
    else d

/-- DataSelector.processData (node.py lines 334-394) as a function of
the option values and the 'input' slot data.  The slice positions use
List.indexOf, which (unlike Python list.index) is the list length for
an absent axis name; the claims only concern present names. -/
def processData (o : DSOpts) (input : Option (AGInput V)) : DD V :=
  match input with
  | none => []
  | some src =>
    -- self.validate(data) returns True (line 331)
    match o.dataName with
    | none => []
    | some nm =>
      let hasGG : Bool := match src with
        | .gridD _ => true
        | .dataD _ => true
        | .other => false
      let dd0 : DD V := match src with
        | .gridD d => d
        | .dataD d => d
        | .other => []
      let data0 : DD V :=
        if hasGG ∧ o.grid then getGrid dd0 (some [nm])
        else
          match ddGet dd0 nm with
          | none => []
          | some ent =>
            (nm, ent) :: dd0.filter (fun p => p.1 ∈ ent.axes ∧ p.1 ≠ nm)
      if o.grid then
        match ddGet data0 nm with
        | none => data0
        | some ent0 =>
          let axnames := ent0.axes
          let sls0 : List (Option (Nat × Nat)) := axnames.map (fun _ => none)
          let step1 := o.slices.foldl
            (fun (acc : List (Option (Nat × Nat)) × DD V) p =>
              (acc.1.set (axnames.indexOf p.1) (some p.2),
               ddSet acc.2 p.1
                 (fun e => { e with values := slice1 e.values p.2 })))
            (sls0, data0)
          let data1 := ddSet step1.2 nm
            (fun e => { e with values := applySlices e.values step1.1 })
          let neworder0 : List (Option Nat) := axnames.map (fun _ => none)
          let neworder1 := o.axesOrder.foldl
            (fun acc p => acc.set p.2 (some (axnames.indexOf p.1))) neworder0
          let oldorder := (List.range axnames.length).filter
            (fun i => some i ∉ neworder1)
          let neworder := fillNone neworder1 oldorder
          let data2 := ddSet data1 nm (fun e =>
            { values := transposeA e.values neworder,
              axes := neworder.map (fun i => axnames.getD i "") })
          if o.squeeze then
            match ddGet data2 nm with
            | none => data2
            | some ent2 =>
              let oldshape := ent2.values.shape
              let data3 := ddSet data2 nm
                (fun e => { e with values := squeezeA e.values })
              squeezeLoop nm oldshape (oldshape.length + 1) 0 data3
          else data2
      else data0

/-- Input grid of the C9 scenario: a selected field z over axes x and
y, with the given shapes and contents. -/
def gridInput (nx ny : Nat) (g gx gy : List Nat → V) : DD V :=
  [("z", { values := { shape := [nx, ny], get := g }, axes := ["x", "y"] }),
   ("x", { values := { shape := [nx], get := gx }, axes := [] }),
   ("y", { values := { shape := [ny], get := gy }, axes := [] })]

/-- Options of the C9 scenario: select z, slice y to the single index
k, keep the axis order, squeeze enabled. -/
def sliceOpts (k : Nat) : DSOpts :=
  { grid := true, dataName := some "z", slices := [("y", (k, k + 1))],
    axesOrder := [], squeeze := true }

/-- Equality of the configuration fields of a node: the engine core
(run, setSourceData, the data setter, broadcastData) never changes the
wiring, the connection lists, the options, or the policy flags of any
node; only setSource and option setters (outside the core) do. -/
def cfgEq (a b : PNode V O) : Prop :=
  a.deps = b.deps ∧ a.reqs = b.reqs ∧ a.inRef = b.inRef ∧ a.opts = b.opts ∧
  a.updateOnSource = b.updateOnSource ∧
  a.updateOnOptionChange = b.updateOnOptionChange

/-- Frame of a core execution: the log only grows (new events in front)
and every node's configuration fields are unchanged. -/
def Frame (s s' : Sys V O) : Prop :=
  (∃ r, s'.log = r ++ s.log) ∧ ∀ m, cfgEq (s'.nodes m) (s.nodes m)

/-- Operations that do not directly target node n's data fields: within
a cascade, node n's slot datum is only written by deliveries from nodes
that list n as a dataProcessed receiver, and its output only by its own
non-re-entrant run. -/
def OpOK (n : Nat) : Op V → Prop
  | .setSourceData d _ => d ≠ n
  | .setData d _ => d ≠ n
  | .emitList _ ds => n ∉ ds
  | _ => True

/-! Basic projection lemmas for the state updaters. -/

@[simp]
theorem updNode_nodes_self (s : Sys V O) (n : Nat) (f : PNode V O → PNode V O) :
    (updNode s n f).nodes n = f (s.nodes n) := by
  simp [updNode]

theorem updNode_nodes_ne (s : Sys V O) (n m : Nat) (f : PNode V O → PNode V O)
    (h : m ≠ n) : (updNode s n f).nodes m = s.nodes m := by
  simp [updNode, h]

@[simp]
theorem updNode_log (s : Sys V O) (n : Nat) (f : PNode V O → PNode V O) :
    (updNode s n f).log = s.log := rfl

@[simp]
theorem addEv_nodes (s : Sys V O) (e : Ev) : (addEv s e).nodes = s.nodes := rfl

@[simp]
theorem addEv_log (s : Sys V O) (e : Ev) : (addEv s e).log = e :: s.log := rfl

/-! Unfolding equations of the executor, stated with the lets inlined. -/

theorem exec_run_unfold (emptyV : V) (compute : Nat → O → Option V → Option V)
    (fuel : Nat) (s : Sys V O) (n : Nat) :
    exec emptyV compute (fuel + 1) s (.run n) =
    if (s.nodes n).running then
      some (updNode s n fun nd => { nd with uptodate := false })
    else
      ((((updNode s n fun nd => { nd with running := true }).nodes n).inRef).elim
          (some (updNode s n fun nd => { nd with running := true }))
          (fun r => exec emptyV compute fuel
            (updNode s n fun nd => { nd with running := true }) (.run r))).bind
        fun s2 =>
      if (s2.nodes n).uptodate then some s2
      else
        (exec emptyV compute fuel (addEv s2 (.comp n))
            (.setData n (compute n (s2.nodes n).opts (s2.nodes n).inData))).bind
          fun s3 =>
        some (updNode s3 n fun nd =>
          { nd with uptodate := true, running := false }) := rfl

theorem exec_setSourceData_unfold (emptyV : V)
    (compute : Nat → O → Option V → Option V) (fuel : Nat) (s : Sys V O)
    (n : Nat) (v : Option V) :
    exec emptyV compute (fuel + 1) s (.setSourceData n v) =
    if ((updNode s n fun nd =>
        { nd with inData := v, uptodate := false }).nodes n).updateOnSource then
      exec emptyV compute fuel
        (updNode s n fun nd => { nd with inData := v, uptodate := false }) (.run n)
    else
      some (updNode s n fun nd => { nd with inData := v, uptodate := false }) := rfl

theorem exec_setData_unfold (emptyV : V)
    (compute : Nat → O → Option V → Option V) (fuel : Nat) (s : Sys V O)
    (n : Nat) (v : Option V) :
    exec emptyV compute (fuel + 1) s (.setData n v) =
    exec emptyV compute fuel
      (updNode s n fun nd => { nd with data := some (v.getD emptyV) })
      (.broadcastData n) := rfl

theorem exec_broadcastData_unfold (emptyV : V)
    (compute : Nat → O → Option V → Option V) (fuel : Nat) (s : Sys V O)
    (n : Nat) :
    exec emptyV compute (fuel + 1) s (.broadcastData n) =
    exec emptyV compute fuel (addEv s (.emit n))
      (.emitList (s.nodes n).data (s.nodes n).deps) := rfl

theorem exec_emitList_nil_unfold (emptyV : V)
    (compute : Nat → O → Option V → Option V) (fuel : Nat) (s : Sys V O)
    (v : Option V) :
    exec emptyV compute (fuel + 1) s (.emitList v []) = some s := rfl

theorem exec_emitList_cons_unfold (emptyV : V)
    (compute : Nat → O → Option V → Option V) (fuel : Nat) (s : Sys V O)
    (v : Option V) (d : Nat) (rest : List Nat) :
    exec emptyV compute (fuel + 1) s (.emitList v (d :: rest)) =
    (exec emptyV compute fuel s (.setSourceData d v)).bind fun s1 =>
      exec emptyV compute fuel s1 (.emitList v rest) := rfl

theorem exec_reqList_nil_unfold (emptyV : V)
    (compute : Nat → O → Option V → Option V) (fuel : Nat) (s : Sys V O) :
    exec emptyV compute (fuel + 1) s (.reqList []) = some s := rfl

theorem exec_reqList_cons_unfold (emptyV : V)
    (compute : Nat → O → Option V → Option V) (fuel : Nat) (s : Sys V O)
    (u : Nat) (rest : List Nat) :
    exec emptyV compute (fuel + 1) s (.reqList (u :: rest)) =
    (exec emptyV compute fuel s (.broadcastData u)).bind fun s1 =>
      exec emptyV compute fuel s1 (.reqList rest) := rfl

theorem exec_zero (emptyV : V) (compute : Nat → O → Option V → Option V)
    (s : Sys V O) (op : Op V) : exec emptyV compute 0 s op = none := rfl

/-! Frame reasoning: the engine core only grows the log and never
changes configuration fields. -/

theorem cfgEq_refl (a : PNode V O) : cfgEq a a := ⟨rfl, rfl, rfl, rfl, rfl, rfl⟩

theorem cfgEq_trans {a b c : PNode V O} (h1 : cfgEq a b) (h2 : cfgEq b c) :
    cfgEq a c := by
  obtain ⟨d1, r1, i1, o1, u1, p1⟩ := h1
  obtain ⟨d2, r2, i2, o2, u2, p2⟩ := h2
  exact ⟨d1.trans d2, r1.trans r2, i1.trans i2, o1.trans o2, u1.trans u2,
    p1.trans p2⟩

theorem frame_trans {s1 s2 s3 : Sys V O} (h1 : Frame s1 s2) (h2 : Frame s2 s3) :
    Frame s1 s3 := by
  obtain ⟨⟨r1, hr1⟩, hc1⟩ := h1
  obtain ⟨⟨r2, hr2⟩, hc2⟩ := h2
  exact ⟨⟨r2 ++ r1, by rw [hr2, hr1, List.append_assoc]⟩,
    fun m => cfgEq_trans (hc2 m) (hc1 m)⟩

theorem frame_updNode (s : Sys V O) (n : Nat) (f : PNode V O → PNode V O)
    (h : ∀ nd, cfgEq (f nd) nd) : Frame s (updNode s n f) := by
  refine ⟨⟨[], rfl⟩, fun m => ?_⟩
  by_cases hm : m = n
  · subst hm; rw [updNode_nodes_self]; exact h _
  · rw [updNode_nodes_ne _ _ _ _ hm]; exact cfgEq_refl _

theorem frame_addEv (s : Sys V O) (e : Ev) : Frame s (addEv s e) :=
  ⟨⟨[e], rfl⟩, fun _ => cfgEq_refl _⟩

/-- Core frame lemma: any completed core execution only prepends log
events and leaves every node's configuration fields (wiring, connection
lists, options, policy flags) unchanged. -/
theorem exec_frame (emptyV : V) (compute : Nat → O → Option V → Option V) :
    ∀ (fuel : Nat) (s : Sys V O) (op : Op V) (s' : Sys V O),
      exec emptyV compute fuel s op = some s' → Frame s s' := by
  intro fuel
  induction fuel with
  | zero => intro s op s' h; exact absurd h (by simp [exec])
  | succ f ih =>
    intro s op s' h
    cases op with
    | run n =>
      rw [exec_run_unfold] at h
      by_cases hr : (s.nodes n).running
      · rw [if_pos hr] at h
        injection h with h
        subst h
        exact frame_updNode _ _ _ (fun nd => ⟨rfl, rfl, rfl, rfl, rfl, rfl⟩)
      · rw [if_neg hr] at h
        rw [Option.bind_eq_some] at h
        obtain ⟨s2, h2, h⟩ := h
        have f1 : Frame s s2 := by
          rw [updNode_nodes_self] at h2
          rcases href : (s.nodes n).inRef with _ | r
          · rw [href] at h2
            simp only [Option.elim_none] at h2
            injection h2 with h2
            subst h2
            exact frame_updNode _ _ _ (fun nd => ⟨rfl, rfl, rfl, rfl, rfl, rfl⟩)
          · rw [href] at h2
            simp only [Option.elim_some] at h2
            exact frame_trans
              (frame_updNode s n (fun nd => { nd with running := true })
                (fun nd => ⟨rfl, rfl, rfl, rfl, rfl, rfl⟩))
              (ih _ _ _ h2)
        by_cases hu : (s2.nodes n).uptodate
        · rw [if_pos hu] at h
          injection h with h
          subst h
          exact f1
        · rw [if_neg hu] at h
          rw [Option.bind_eq_some] at h
          obtain ⟨s3, h3, h⟩ := h
          injection h with h
          subst h
          exact frame_trans f1 (frame_trans (frame_trans (frame_addEv _ _)
            (ih _ _ _ h3))
            (frame_updNode _ _ _ (fun nd => ⟨rfl, rfl, rfl, rfl, rfl, rfl⟩)))
    | setSourceData n v =>
      rw [exec_setSourceData_unfold] at h
      have fu : Frame s (updNode s n fun nd =>
          { nd with inData := v, uptodate := false }) :=
        frame_updNode _ _ _ (fun nd => ⟨rfl, rfl, rfl, rfl, rfl, rfl⟩)
      by_cases hs : ((updNode s n fun nd =>
          { nd with inData := v, uptodate := false }).nodes n).updateOnSource
      · rw [if_pos hs] at h
        exact frame_trans fu (ih _ _ _ h)
      · rw [if_neg hs] at h
        injection h with h
        subst h
        exact fu
    | setData n v =>
      rw [exec_setData_unfold] at h
      exact frame_trans
        (frame_updNode s n (fun nd => { nd with data := some (v.getD emptyV) })
          (fun nd => ⟨rfl, rfl, rfl, rfl, rfl, rfl⟩))
        (ih _ _ _ h)
    | broadcastData n =>
      rw [exec_broadcastData_unfold] at h
      exact frame_trans (frame_addEv _ _) (ih _ _ _ h)
    | emitList v ds =>
      cases ds with
      | nil =>
        rw [exec_emitList_nil_unfold] at h
        injection h with h
        subst h
        exact ⟨⟨[], rfl⟩, fun _ => cfgEq_refl _⟩
      | cons d rest =>
        rw [exec_emitList_cons_unfold, Option.bind_eq_some] at h
        obtain ⟨s1, h1, h⟩ := h
        exact frame_trans (ih _ _ _ h1) (ih _ _ _ h)
    | reqList us =>
      cases us with
      | nil =>
        rw [exec_reqList_nil_unfold] at h
        injection h with h
        subst h
        exact ⟨⟨[], rfl⟩, fun _ => cfgEq_refl _⟩
      | cons u rest =>
        rw [exec_reqList_cons_unfold, Option.bind_eq_some] at h
        obtain ⟨s1, h1, h⟩ := h
        exact frame_trans (ih _ _ _ h1) (ih _ _ _ h)

/-- Persistence of the running flag, and downward monotonicity of the
up-to-date flag, across any core execution: while a node is marked
running, no operation can clear its running flag (only the node's own
non-re-entrant run does, and that path is blocked), and no operation
can newly set its up-to-date flag (only the node's own non-re-entrant
compute branch sets it). -/
theorem exec_running (emptyV : V) (compute : Nat → O → Option V → Option V)
    (n : Nat) :
    ∀ (fuel : Nat) (s : Sys V O) (op : Op V) (s' : Sys V O),
      exec emptyV compute fuel s op = some s' →
      (s.nodes n).running = true →
      (s'.nodes n).running = true ∧
        ((s'.nodes n).uptodate = true → (s.nodes n).uptodate = true) := by
  intro fuel
  induction fuel with
  | zero => intro s op s' h _; exact absurd h (by simp [exec])
  | succ f ih =>
    intro s op s' h hn
    cases op with
    | run m =>
      rw [exec_run_unfold] at h
      by_cases hr : (s.nodes m).running
      · rw [if_pos hr] at h
        injection h with h
        subst h
        by_cases hm : n = m
        · subst hm
          rw [updNode_nodes_self]
          exact ⟨hn, fun hc => absurd hc (by simp)⟩
        · rw [updNode_nodes_ne _ _ _ _ hm]
          exact ⟨hn, fun hc => hc⟩
      · rw [if_neg hr] at h
        have hnm : n ≠ m := fun he => hr (he ▸ hn)
        have hs1n : ((updNode s m fun nd =>
            { nd with running := true }).nodes n) = s.nodes n :=
          updNode_nodes_ne _ _ _ _ hnm
        rw [Option.bind_eq_some] at h
        obtain ⟨s2, h2, h⟩ := h
        have g1 : (s2.nodes n).running = true ∧
            ((s2.nodes n).uptodate = true → (s.nodes n).uptodate = true) := by
          rw [updNode_nodes_self] at h2
          rcases href : (s.nodes m).inRef with _ | r
          · rw [href] at h2
            simp only [Option.elim_none] at h2
            injection h2 with h2
            subst h2
            rw [hs1n]
            exact ⟨hn, fun hc => hc⟩
          · rw [href] at h2
            simp only [Option.elim_some] at h2
            have g := ih _ _ _ h2 (by rw [hs1n]; exact hn)
            rw [hs1n] at g
            exact g
        by_cases hu : (s2.nodes m).uptodate
        · rw [if_pos hu] at h
          injection h with h
          subst h
          exact g1
        · rw [if_neg hu] at h
          rw [Option.bind_eq_some] at h
          obtain ⟨s3, h3, h⟩ := h
          injection h with h
          subst h
          have hadd : (addEv s2 (Ev.comp m)).nodes n = s2.nodes n := by
            rw [addEv_nodes]
          have g2 := ih _ _ _ h3 (by rw [hadd]; exact g1.1)
          rw [hadd] at g2
          rw [updNode_nodes_ne _ _ _ _ hnm]
          exact ⟨g2.1, fun hc => g1.2 (g2.2 hc)⟩
    | setSourceData m v =>
      rw [exec_setSourceData_unfold] at h
      have base : ((updNode s m fun nd =>
            { nd with inData := v, uptodate := false }).nodes n).running = true ∧
          (((updNode s m fun nd =>
            { nd with inData := v, uptodate := false }).nodes n).uptodate = true →
            (s.nodes n).uptodate = true) := by
        by_cases hm : n = m
        · subst hm
          rw [updNode_nodes_self]
          exact ⟨hn, fun hc => absurd hc (by simp)⟩
        · rw [updNode_nodes_ne _ _ _ _ hm]
          exact ⟨hn, fun hc => hc⟩
      by_cases hs : ((updNode s m fun nd =>
          { nd with inData := v, uptodate := false }).nodes m).updateOnSource
      · rw [if_pos hs] at h
        have g := ih _ _ _ h base.1
        exact ⟨g.1, fun hc => base.2 (g.2 hc)⟩
      · rw [if_neg hs] at h
        injection h with h
        subst h
        exact base
    | setData m v =>
      rw [exec_setData_unfold] at h
      have base : ((updNode s m fun nd =>
            { nd with data := some (v.getD emptyV) }).nodes n) = s.nodes n ∨
          ((updNode s m fun nd =>
            { nd with data := some (v.getD emptyV) }).nodes n).running
              = (s.nodes n).running ∧
          ((updNode s m fun nd =>
            { nd with data := some (v.getD emptyV) }).nodes n).uptodate
              = (s.nodes n).uptodate := by
        by_cases hm : n = m
        · subst hm
          rw [updNode_nodes_self]
          exact Or.inr ⟨rfl, rfl⟩
        · rw [updNode_nodes_ne _ _ _ _ hm]
          exact Or.inl rfl
      have hrun : ((updNode s m fun nd =>
          { nd with data := some (v.getD emptyV) }).nodes n).running = true := by
        rcases base with hb | ⟨hb, _⟩
        · rw [hb]; exact hn
        · rw [hb]; exact hn
      have g := ih _ _ _ h hrun
      refine ⟨g.1, fun hc => ?_⟩
      have := g.2 hc
      rcases base with hb | ⟨_, hb⟩
      · rwa [hb] at this
      · rwa [hb] at this
    | broadcastData m =>
      rw [exec_broadcastData_unfold] at h
      have hadd : (addEv s (Ev.emit m)).nodes n = s.nodes n := by
        rw [addEv_nodes]
      have g := ih _ _ _ h (by rw [hadd]; exact hn)
      rw [hadd] at g
      exact g
    | emitList v ds =>
      cases ds with
      | nil =>
        rw [exec_emitList_nil_unfold] at h
        injection h with h
        subst h
        exact ⟨hn, fun hc => hc⟩
      | cons d rest =>
        rw [exec_emitList_cons_unfold, Option.bind_eq_some] at h
        obtain ⟨s1, h1, h⟩ := h
        have g1 := ih _ _ _ h1 hn
        have g2 := ih _ _ _ h g1.1
        exact ⟨g2.1, fun hc => g1.2 (g2.2 hc)⟩
    | reqList us =>
      cases us with
      | nil =>
        rw [exec_reqList_nil_unfold] at h
        injection h with h
        subst h
        exact ⟨hn, fun hc => hc⟩
      | cons u rest =>
        rw [exec_reqList_cons_unfold, Option.bind_eq_some] at h
        obtain ⟨s1, h1, h⟩ := h
        have g1 := ih _ _ _ h1 hn
        have g2 := ih _ _ _ h g1.1
        exact ⟨g2.1, fun hc => g1.2 (g2.2 hc)⟩

/-- Deps component of a frame. -/
theorem frame_deps {s s' : Sys V O} (hf : Frame s s') :
    ∀ m, (s'.nodes m).deps = (s.nodes m).deps := fun m => (hf.2 m).1

/-- Protection of a running node's data fields: while node n is marked
running and no node lists n as a dataProcessed receiver, no core
operation that does not directly target n can change n's slot datum or
its output (n's own run is re-entrant and only clears the up-to-date
flag; deliveries to n would require a connection to n). -/
theorem exec_protected (emptyV : V) (compute : Nat → O → Option V → Option V)
    (n : Nat) :
    ∀ (fuel : Nat) (s : Sys V O) (op : Op V) (s' : Sys V O),
      exec emptyV compute fuel s op = some s' →
      (s.nodes n).running = true →
      (∀ m, n ∉ (s.nodes m).deps) →
      OpOK n op →
      (s'.nodes n).inData = (s.nodes n).inData ∧
        (s'.nodes n).data = (s.nodes n).data := by
  intro fuel
  induction fuel with
  | zero => intro s op s' h _ _ _; exact absurd h (by simp [exec])
  | succ f ih =>
    intro s op s' h hn hdeps hok
    cases op with
    | run m =>
      rw [exec_run_unfold] at h
      by_cases hr : (s.nodes m).running
      · rw [if_pos hr] at h
        injection h with h
        subst h
        by_cases hm : n = m
        · subst hm; rw [updNode_nodes_self]; exact ⟨rfl, rfl⟩
        · rw [updNode_nodes_ne _ _ _ _ hm]; exact ⟨rfl, rfl⟩
      · rw [if_neg hr] at h
        have hnm : n ≠ m := fun he => hr (he ▸ hn)
        have hs1n : ((updNode s m fun nd =>
            { nd with running := true }).nodes n) = s.nodes n :=
          updNode_nodes_ne _ _ _ _ hnm
        have hs1deps : ∀ m', n ∉ ((updNode s m fun nd =>
            { nd with running := true }).nodes m').deps := by
          intro m'
          by_cases hm' : m' = m
          · subst hm'; rw [updNode_nodes_self]; exact hdeps m'
          · rw [updNode_nodes_ne _ _ _ _ hm']; exact hdeps m'
        rw [Option.bind_eq_some] at h
        obtain ⟨s2, h2, h⟩ := h
        rw [updNode_nodes_self] at h2
        have g1 : (s2.nodes n).inData = (s.nodes n).inData ∧
            (s2.nodes n).data = (s.nodes n).data ∧
            (s2.nodes n).running = true ∧
            (∀ m', n ∉ (s2.nodes m').deps) := by
          rcases href : (s.nodes m).inRef with _ | r
          · rw [href] at h2
            simp only [Option.elim_none] at h2
            injection h2 with h2
            subst h2
            rw [hs1n]
            exact ⟨rfl, rfl, hn, hs1deps⟩
          · rw [href] at h2
            simp only [Option.elim_some] at h2
            have gp := ih _ _ _ h2 (by rw [hs1n]; exact hn) hs1deps trivial
            have gr := exec_running emptyV compute n _ _ _ _ h2
              (by rw [hs1n]; exact hn)
            have gf := exec_frame emptyV compute _ _ _ _ h2
            rw [hs1n] at gp
            refine ⟨gp.1, gp.2, gr.1, fun m' => ?_⟩
            rw [frame_deps gf m']
            exact hs1deps m'
        by_cases hu : (s2.nodes m).uptodate
        · rw [if_pos hu] at h
          injection h with h
          subst h
          exact ⟨g1.1, g1.2.1⟩
        · rw [if_neg hu] at h
          rw [Option.bind_eq_some] at h
          obtain ⟨s3, h3, h⟩ := h
          injection h with h
          subst h
          have hadd : ∀ m', (addEv s2 (Ev.comp m)).nodes m' = s2.nodes m' := by
            intro m'; rw [addEv_nodes]
          have gp := ih _ _ _ h3 (by rw [hadd]; exact g1.2.2.1)
            (by intro m'; rw [hadd]; exact g1.2.2.2 m') (by exact hnm.symm)
          rw [hadd] at gp
          rw [updNode_nodes_ne _ _ _ _ hnm]
          exact ⟨gp.1.trans g1.1, gp.2.trans g1.2.1⟩
    | setSourceData m v =>
      rw [exec_setSourceData_unfold] at h
      have hmn : m ≠ n := hok
      have hs1n : ((updNode s m fun nd =>
          { nd with inData := v, uptodate := false }).nodes n) = s.nodes n :=
        updNode_nodes_ne _ _ _ _ (Ne.symm hmn)
      have hs1deps : ∀ m', n ∉ ((updNode s m fun nd =>
          { nd with inData := v, uptodate := false }).nodes m').deps := by
        intro m'
        by_cases hm' : m' = m
        · subst hm'; rw [updNode_nodes_self]; exact hdeps m'
        · rw [updNode_nodes_ne _ _ _ _ hm']; exact hdeps m'
      by_cases hs : ((updNode s m fun nd =>
          { nd with inData := v, uptodate := false }).nodes m).updateOnSource
      · rw [if_pos hs] at h
        have gp := ih _ _ _ h (by rw [hs1n]; exact hn) hs1deps trivial
        rw [hs1n] at gp
        exact gp
      · rw [if_neg hs] at h
        injection h with h
        subst h
        rw [hs1n]
        exact ⟨rfl, rfl⟩
    | setData m v =>
      rw [exec_setData_unfold] at h
      have hmn : m ≠ n := hok
      have hs1n : ((updNode s m fun nd =>
          { nd with data := some (v.getD emptyV) }).nodes n) = s.nodes n :=
        updNode_nodes_ne _ _ _ _ (Ne.symm hmn)
      have hs1deps : ∀ m', n ∉ ((updNode s m fun nd =>
          { nd with data := some (v.getD emptyV) }).nodes m').deps := by
        intro m'
        by_cases hm' : m' = m
        · subst hm'; rw [updNode_nodes_self]; exact hdeps m'
        · rw [updNode_nodes_ne _ _ _ _ hm']; exact hdeps m'
      have gp := ih _ _ _ h (by rw [hs1n]; exact hn) hs1deps trivial
      rw [hs1n] at gp
      exact gp
    | broadcastData m =>
      rw [exec_broadcastData_unfold] at h
      have hadd : ∀ m', (addEv s (Ev.emit m)).nodes m' = s.nodes m' := by
        intro m'; rw [addEv_nodes]
      have gp := ih _ _ _ h (by rw [hadd]; exact hn)
        (by intro m'; rw [hadd]; exact hdeps m') (by exact hdeps m)
      rw [hadd] at gp
      exact gp
    | emitList v ds =>
      cases ds with
      | nil =>
        rw [exec_emitList_nil_unfold] at h
        injection h with h
        subst h
        exact ⟨rfl, rfl⟩
      | cons d rest =>
        rw [exec_emitList_cons_unfold, Option.bind_eq_some] at h
        obtain ⟨s1, h1, h⟩ := h
        have hok' : n ∉ d :: rest := hok
        have hdn : d ≠ n := by
          intro he; exact hok' (he ▸ List.mem_cons_self _ _)
        have hrest : n ∉ rest := fun he => hok' (List.mem_cons_of_mem _ he)
        have gp1 := ih _ _ _ h1 hn hdeps hdn
        have gr1 := exec_running emptyV compute n _ _ _ _ h1 hn
        have gf1 := exec_frame emptyV compute _ _ _ _ h1
        have gp2 := ih _ _ _ h gr1.1
          (by intro m'; rw [frame_deps gf1 m']; exact hdeps m') hrest
        exact ⟨gp2.1.trans gp1.1, gp2.2.trans gp1.2⟩
    | reqList us =>
      cases us with
      | nil =>
        rw [exec_reqList_nil_unfold] at h
        injection h with h
        subst h
        exact ⟨rfl, rfl⟩
      | cons u rest =>
        rw [exec_reqList_cons_unfold, Option.bind_eq_some] at h
        obtain ⟨s1, h1, h⟩ := h
        have gp1 := ih _ _ _ h1 hn hdeps trivial
        have gr1 := exec_running emptyV compute n _ _ _ _ h1 hn
        have gf1 := exec_frame emptyV compute _ _ _ _ h1
        have gp2 := ih _ _ _ h gr1.1
          (by intro m'; rw [frame_deps gf1 m']; exact hdeps m') trivial
        exact ⟨gp2.1.trans gp1.1, gp2.2.trans gp1.2⟩

/-- Helper equation: a run() call on a node whose running flag is set
takes the re-entrant branch and is exactly the clearing of the
up-to-date flag. -/
theorem exec_run_reentrant (emptyV : V) (compute : Nat → O → Option V → Option V)
    (fuel : Nat) (s : Sys V O) (n : Nat) (h : (s.nodes n).running = true)
    (hf : 1 ≤ fuel) :
    exec emptyV compute fuel s (.run n)
      = some (updNode s n fun nd => { nd with uptodate := false }) := by
  obtain ⟨f, rfl⟩ : ∃ f, fuel = f + 1 := ⟨fuel - 1, by omega⟩
  simp [exec, h]

/-- C2: for every node whose running flag is set, a (re-entrant) call to
run() does not call run() on any upstream source and does not invoke the
compute step; its only effect is to clear the up-to-date flag, so the
node ends the call marked not-up-to-date and all other node state is
unchanged.  (The conclusion equates the whole resulting system state
with the state whose only difference is the cleared flag: no event is
logged and no other field of any node changes.) -/
theorem run_reentrant_clears_uptodate_only (emptyV : V)
    (compute : Nat → O → Option V → Option V) (fuel : Nat) (s : Sys V O)
    (n : Nat) (h : (s.nodes n).running = true) (hf : 1 ≤ fuel) :
    exec emptyV compute fuel s (.run n)
      = some (updNode s n fun nd => { nd with uptodate := false }) :=
  exec_run_reentrant emptyV compute fuel s n h hf

/-- Witness for C2 at a concrete running node. -/
theorem run_reentrant_clears_uptodate_only_witness :
    (sysRunning.nodes 0).running = true ∧ 1 ≤ 5 ∧
    exec 0 computeId 5 sysRunning (.run 0)
      = some (updNode sysRunning 0 fun nd => { nd with uptodate := false }) :=
  ⟨rfl, by omega,
    run_reentrant_clears_uptodate_only 0 computeId 5 sysRunning 0 rfl (by omega)⟩

/-- C5: for every node, an option setter decorated with updateOption
while recompute-on-option-change is disabled stores the new option value
and clears the up-to-date flag, but leaves the node's output, its source
data, and its running flag unchanged, and emits nothing (the log is
unchanged: no optionsUpdated signal, no compute, no broadcast). -/
theorem updateOption_disabled_stores_only (emptyV : V)
    (compute : Nat → O → Option V → Option V) (fuel : Nat) (s : Sys V O)
    (n : Nat) (f : O → O) (h : (s.nodes n).updateOnOptionChange = false) :
    updateOption emptyV compute fuel s n f
      = some (updNode s n fun nd => { nd with opts := f nd.opts, uptodate := false })
    ∧ ((updNode s n fun nd =>
        { nd with opts := f nd.opts, uptodate := false }).nodes n).data
        = (s.nodes n).data
    ∧ ((updNode s n fun nd =>
        { nd with opts := f nd.opts, uptodate := false }).nodes n).inData
        = (s.nodes n).inData
    ∧ ((updNode s n fun nd =>
        { nd with opts := f nd.opts, uptodate := false }).nodes n).running
        = (s.nodes n).running
    ∧ (updNode s n fun nd =>
        { nd with opts := f nd.opts, uptodate := false }).log = s.log := by
  refine ⟨?_, by simp, by simp, by simp, by simp⟩
  simp [updateOption, h]

/-- Witness for C5 at a concrete node with the policy disabled. -/
theorem updateOption_disabled_stores_only_witness :
    ((( { nodes := fun _ => { initNode () with updateOnOptionChange := false },
          log := [] } : Sys Nat Unit).nodes 0).updateOnOptionChange = false)
    ∧ updateOption 0 computeId 5
        { nodes := fun _ => { initNode () with updateOnOptionChange := false },
          log := [] } 0 id
      = some (updNode
          { nodes := fun _ => { initNode () with updateOnOptionChange := false },
            log := [] } 0
          fun nd => { nd with opts := id nd.opts, uptodate := false }) :=
  ⟨rfl, (updateOption_disabled_stores_only 0 computeId 5 _ 0 id rfl).1⟩

/-- C6: for every node and every slot name not among the declared source
slots, setSource fails immediately and synchronously with the
unrecognized-source error, and the returned state is literally the input
state: every upstream reference, slot datum, and signal-connection list
is as before the call. -/
theorem setSource_undeclared_slot_errors (emptyV : V)
    (compute : Nat → O → Option V → Option V) (fuel : Nat) (s : Sys V O)
    (n : Nat) (slot : String) (r : Nat) (h : slot ∉ nodeSources) :
    setSource emptyV compute fuel s n slot r = some (s, some srcErr) := by
  simp [setSource, h]

/-- Witness for C6 at a concrete undeclared slot name. -/
theorem setSource_undeclared_slot_errors_witness :
    ("output" ∉ nodeSources)
    ∧ setSource 0 computeId 5 sysFresh 0 "output" 1 = some (sysFresh, some srcErr) :=
  ⟨by decide, setSource_undeclared_slot_errors 0 computeId 5 sysFresh 0 "output" 1 (by decide)⟩

/-- C10: for a grid-form input and no names restriction, asGrid returns
None (ok none) rather than the grid itself: the grid branch only returns
under a names restriction and the function has no final return. -/
theorem asGrid_grid_noNames_returns_none (d : DD V) :
    asGrid (.gridD d) none true = .ok none := rfl

set_option maxHeartbeats 3200000 in
/-- C1 (amended): for the three-node chain A→B→C wired downstream-first
via setSource (C's source set to B before B's source is set to A, with
recompute-on-source-change enabled on B and C), pushing new data into A
via setSourceData and then calling run() on A recomputes B before C
(events comp 1 before comp 2 in the pushed-phase log), and at the end
C's output equals C's compute applied to B's compute applied to A's
newest data, with no stale intermediate at B. -/
theorem chain_downstream_push_propagates (V : Type) (e : V)
    (fB fC : Option V → V) (v : V) :
    (chainFinalDown e fB fC v).map (fun s => ((s.nodes 2).data, (s.nodes 1).data))
      = some (some (fC (some (fB (some v)))), some (fB (some v)))
    ∧ chainPushLog e fB fC v
      = [.comp 0, .emit 0, .comp 1, .emit 1, .comp 2, .emit 2]
    ∧ comesBefore (.comp 1) (.comp 2) (chainPushLog e fB fC v) = true := by
  refine ⟨?_, ?_, ?_⟩ <;> rfl

set_option maxHeartbeats 3200000 in
/-- C1 (counterexample): with the same chain wired upstream-first (B's
source set to A before C's source is set to B) over Nat datasets with
B adding 10 and C adding 100, pushing 7 into A and calling run() on A
leaves C at the stale value 110 (computed from the empty dataset during
wiring), not 100 + (10 + 7) as the claim requires, and A's output is
still the empty dataset: the wiring pass left A and B marked running,
so the push takes the re-entrant branch and nothing recomputes. -/
theorem chain_upstream_wiring_stale :
    (chainFinalUp.map fun s => (s.nodes 2).data) = some (some 110)
    ∧ some (110 : Nat) ≠ some (100 + (10 + 7))
    ∧ (chainFinalUp.map fun s => (s.nodes 0).data) = some (some 0)
    ∧ (chainFinalUp.map fun s => ((s.nodes 0).running, (s.nodes 1).running))
      = some (true, true) := by
  refine ⟨?_, by decide, ?_, ?_⟩ <;> rfl

/-- Helper: running persistence over a sequence of operations. -/
theorem execSeq_running (emptyV : V) (compute : Nat → O → Option V → Option V)
    (n : Nat) :
    ∀ (ops : List (Op V)) (fuel : Nat) (s s' : Sys V O),
      execSeq emptyV compute fuel s ops = some s' →
      (s.nodes n).running = true → (s'.nodes n).running = true := by
  intro ops
  induction ops with
  | nil =>
    intro fuel s s' h hn
    injection h with h
    subst h
    exact hn
  | cons op rest ih =>
    intro fuel s s' h hn
    simp only [execSeq, Option.bind_eq_some] at h
    obtain ⟨s1, h1, h⟩ := h
    exact ih _ _ _ h (exec_running emptyV compute n _ _ _ _ h1 hn).1

/-- C3: a run() on a node that is not running and still up-to-date after
its sources have run (here: a node with no upstream reference, the no-op
pass) returns with the running flag left set and changes nothing else;
consequently, after any sequence of further run() calls on any nodes,
the node's running flag is still true. -/
theorem run_noop_leaves_running_permanently (emptyV : V)
    (compute : Nat → O → Option V → Option V) (fuel : Nat) (s : Sys V O)
    (n : Nat) (hr : (s.nodes n).running = false)
    (hu : (s.nodes n).uptodate = true) (href : (s.nodes n).inRef = none)
    (hf : 1 ≤ fuel) :
    exec emptyV compute fuel s (.run n)
      = some (updNode s n fun nd => { nd with running := true })
    ∧ (∀ (ms : List Nat) (fuel2 : Nat) (s'' : Sys V O),
        execSeq emptyV compute fuel2
          (updNode s n fun nd => { nd with running := true })
          (ms.map Op.run) = some s'' →
        (s''.nodes n).running = true)
    ∧ ∀ (s2 : Sys V O) (fuel2 : Nat), (s2.nodes n).running = true →
        1 ≤ fuel2 →
        exec emptyV compute fuel2 s2 (.run n)
          = some (updNode s2 n fun nd => { nd with uptodate := false }) := by
  obtain ⟨f, rfl⟩ : ∃ f, fuel = f + 1 := ⟨fuel - 1, by omega⟩
  refine ⟨?_, ?_, fun s2 fuel2 h2 hf2 => exec_run_reentrant _ _ _ _ _ h2 hf2⟩
  · rw [exec_run_unfold, if_neg (by simp [hr]), updNode_nodes_self]
    have : ({ s.nodes n with running := true } : PNode V O).inRef
        = (s.nodes n).inRef := rfl
    rw [this, href]
    simp only [Option.elim_none, Option.some_bind, updNode_nodes_self]
    have : ({ s.nodes n with running := true } : PNode V O).uptodate
        = (s.nodes n).uptodate := rfl
    rw [this, hu]
    simp
  · intro ms fuel2 s'' h
    refine execSeq_running emptyV compute n _ _ _ _ h ?_
    rw [updNode_nodes_self]

/-- Witness for C3 at a concrete up-to-date source node, including a
nonempty sequence of further run() calls. -/
theorem run_noop_leaves_running_permanently_witness :
    (sysUptodate.nodes 0).running = false ∧
    (sysUptodate.nodes 0).uptodate = true ∧
    (sysUptodate.nodes 0).inRef = none ∧ 1 ≤ 5 ∧
    (exec 0 computeId 5 sysUptodate (.run 0)
      = some (updNode sysUptodate 0 fun nd => { nd with running := true })
    ∧ (∀ (ms : List Nat) (fuel2 : Nat) (s'' : Sys Nat Unit),
        execSeq 0 computeId fuel2
          (updNode sysUptodate 0 fun nd => { nd with running := true })
          (ms.map Op.run) = some s'' →
        (s''.nodes 0).running = true)
    ∧ ∀ (s2 : Sys Nat Unit) (fuel2 : Nat), (s2.nodes 0).running = true →
        1 ≤ fuel2 →
        exec 0 computeId fuel2 s2 (.run 0)
          = some (updNode s2 0 fun nd => { nd with uptodate := false })) :=
  ⟨rfl, rfl, rfl, by omega,
    run_noop_leaves_running_permanently 0 computeId 5 sysUptodate 0 rfl rfl rfl
      (by omega)⟩


/-- Helper: preservation of no-incoming-links under a node update that
keeps deps. -/
theorem notMemDeps_updNode {n : Nat} (s : Sys V O) (k : Nat)
    (f : PNode V O → PNode V O) (hf : ∀ nd, (f nd).deps = nd.deps)
    (h : ∀ m, n ∉ (s.nodes m).deps) :
    ∀ m, n ∉ ((updNode s k f).nodes m).deps := by
  intro m
  by_cases hm : m = k
  · subst hm; rw [updNode_nodes_self, hf]; exact h m
  · rw [updNode_nodes_ne _ _ _ _ hm]; exact h m

/-- Helper: postcondition of a completed non-re-entrant run() on a node
that is stale and receives no broadcast links: the node ends up-to-date,
not running, with unchanged options and slot input, and its output is
the stored result of the compute step on its current options and slot
input. -/
theorem exec_run_completes (emptyV : V)
    (compute : Nat → O → Option V → Option V) (g : Nat) (t : Sys V O)
    (n : Nat) (s' : Sys V O)
    (hrun : (t.nodes n).running = false)
    (hup : (t.nodes n).uptodate = false)
    (hdeps : ∀ m, n ∉ (t.nodes m).deps)
    (hex : exec emptyV compute (g + 1) t (.run n) = some s') :
    (s'.nodes n).uptodate = true ∧
    (s'.nodes n).running = false ∧
    (s'.nodes n).opts = (t.nodes n).opts ∧
    (s'.nodes n).inData = (t.nodes n).inData ∧
    (s'.nodes n).data
      = some ((compute n ((t.nodes n).opts) ((t.nodes n).inData)).getD emptyV) := by
  rw [exec_run_unfold] at hex
  rw [if_neg (by simp [hrun])] at hex
  rw [Option.bind_eq_some] at hex
  obtain ⟨s2, h2, hex⟩ := hex
  rw [updNode_nodes_self] at h2
  have hsc : ({ t.nodes n with running := true } : PNode V O).inRef
      = (t.nodes n).inRef := rfl
  rw [hsc] at h2
  have hBdeps : ∀ m, n ∉ ((updNode t n fun nd =>
      { nd with running := true }).nodes m).deps :=
    notMemDeps_updNode _ _ _ (fun _ => rfl) hdeps
  have hBrun : ((updNode t n fun nd =>
      { nd with running := true }).nodes n).running = true := by
    rw [updNode_nodes_self]
  have P2 : (s2.nodes n).inData = (t.nodes n).inData ∧
      (s2.nodes n).data = (t.nodes n).data ∧
      (s2.nodes n).opts = (t.nodes n).opts ∧
      (s2.nodes n).running = true ∧
      ¬ (s2.nodes n).uptodate = true ∧
      (∀ m, n ∉ (s2.nodes m).deps) := by
    rcases href : (t.nodes n).inRef with _ | r
    · rw [href] at h2
      simp only [Option.elim_none] at h2
      injection h2 with h2
      subst h2
      rw [updNode_nodes_self]
      exact ⟨rfl, rfl, rfl, rfl, by simp [hup], hBdeps⟩
    · rw [href] at h2
      simp only [Option.elim_some] at h2
      have gp := exec_protected emptyV compute n _ _ _ _ h2 hBrun hBdeps trivial
      have gr := exec_running emptyV compute n _ _ _ _ h2 hBrun
      have gf := exec_frame emptyV compute _ _ _ _ h2
      rw [updNode_nodes_self] at gp
      refine ⟨gp.1, gp.2, ?_, gr.1, ?_, ?_⟩
      · have ho := (gf.2 n).2.2.2.1
        rw [updNode_nodes_self] at ho
        exact ho
      · intro hc
        have hb := gr.2 hc
        rw [updNode_nodes_self] at hb
        have : (t.nodes n).uptodate = true := hb
        rw [hup] at this
        exact absurd this (by simp)
      · intro m
        rw [frame_deps gf m]
        exact hBdeps m
  rw [if_neg P2.2.2.2.2.1] at hex
  rw [Option.bind_eq_some] at hex
  obtain ⟨s3, h3, hex⟩ := hex
  injection hex with hex
  subst hex
  obtain ⟨g2, rfl⟩ : ∃ g2, g = g2 + 1 := by
    cases g with
    | zero => exact absurd h3 (by simp [exec])
    | succ g2 => exact ⟨g2, rfl⟩
  rw [exec_setData_unfold] at h3
  have hCrun : ((updNode (addEv s2 (Ev.comp n)) n fun nd =>
      { nd with data := some ((compute n ((s2.nodes n).opts)
        ((s2.nodes n).inData)).getD emptyV) }).nodes n).running = true := by
    rw [updNode_nodes_self]
    exact P2.2.2.2.1
  have hCdeps : ∀ m, n ∉ ((updNode (addEv s2 (Ev.comp n)) n fun nd =>
      { nd with data := some ((compute n ((s2.nodes n).opts)
        ((s2.nodes n).inData)).getD emptyV) }).nodes m).deps :=
    notMemDeps_updNode _ _ _ (fun _ => rfl) (fun m => P2.2.2.2.2.2 m)
  have gp3 := exec_protected emptyV compute n _ _ _ _ h3 hCrun hCdeps trivial
  have gf3 := exec_frame emptyV compute _ _ _ _ h3
  rw [updNode_nodes_self] at gp3
  refine ⟨?_, ?_, ?_, ?_, ?_⟩
  · rw [updNode_nodes_self]
  · rw [updNode_nodes_self]
  · rw [updNode_nodes_self]
    have ho := (gf3.2 n).2.2.2.1
    rw [updNode_nodes_self] at ho
    exact ho.trans P2.2.2.1
  · rw [updNode_nodes_self]
    exact gp3.1.trans P2.1
  · rw [updNode_nodes_self]
    have hd : (s3.nodes n).data
        = some ((compute n ((s2.nodes n).opts) ((s2.nodes n).inData)).getD emptyV) :=
      gp3.2
    rw [P2.2.2.1, P2.1] at hd
    exact hd

/-- Unfolding equation of updateOption. -/
theorem updateOption_unfold (emptyV : V)
    (compute : Nat → O → Option V → Option V) (fuel : Nat) (s : Sys V O)
    (n : Nat) (f : O → O) :
    updateOption emptyV compute fuel s n f =
    if ((updNode s n fun nd =>
        { nd with opts := f nd.opts, uptodate := false }).nodes n).updateOnOptionChange then
      exec emptyV compute fuel
        (addEv (updNode s n fun nd =>
          { nd with opts := f nd.opts, uptodate := false }) (.optsSig n))
        (.run n)
    else
      some (updNode s n fun nd =>
        { nd with opts := f nd.opts, uptodate := false }) := rfl

/-- C4: for a node that is not running and receives no broadcast links
(no node lists it as a dataProcessed receiver, so its slot input cannot
shift mid-call; in the mandated DAG wiring this is how inputs of a node
being reconfigured behave), setting an option through an
updateOption-decorated setter with recompute-on-option-change enabled
stores the value and synchronously triggers the recomputation protocol;
when the call returns, the node's up-to-date flag is true, it is no
longer running, and its output equals the compute step applied to the
current slot input and the new option value. -/
theorem updateOption_recomputes_synchronously (emptyV : V)
    (compute : Nat → O → Option V → Option V) (fuel : Nat) (s : Sys V O)
    (n : Nat) (f : O → O) (s' : Sys V O)
    (hrun : (s.nodes n).running = false)
    (hopt : (s.nodes n).updateOnOptionChange = true)
    (hdeps : ∀ m, n ∉ (s.nodes m).deps)
    (hex : updateOption emptyV compute fuel s n f = some s') :
    (s'.nodes n).uptodate = true ∧
    (s'.nodes n).running = false ∧
    (s'.nodes n).opts = f (s.nodes n).opts ∧
    (s'.nodes n).inData = (s.nodes n).inData ∧
    (s'.nodes n).data
      = some ((compute n (f (s.nodes n).opts) ((s.nodes n).inData)).getD emptyV) := by
  rw [updateOption_unfold] at hex
  rw [if_pos (by rw [updNode_nodes_self]; exact hopt)] at hex
  obtain ⟨g, rfl⟩ : ∃ g, fuel = g + 1 := by
    cases fuel with
    | zero => exact absurd hex (by simp [exec])
    | succ g => exact ⟨g, rfl⟩
  have hAn : ((addEv (updNode s n fun nd =>
      { nd with opts := f nd.opts, uptodate := false }) (.optsSig n)).nodes n)
      = { s.nodes n with opts := f (s.nodes n).opts, uptodate := false } := by
    have : (addEv (updNode s n fun nd =>
        { nd with opts := f nd.opts, uptodate := false }) (.optsSig n)).nodes n
        = (updNode s n fun nd =>
          { nd with opts := f nd.opts, uptodate := false }).nodes n := rfl
    rw [this, updNode_nodes_self]
  have hAdeps : ∀ m, n ∉ ((addEv (updNode s n fun nd =>
      { nd with opts := f nd.opts, uptodate := false }) (.optsSig n)).nodes m).deps := by
    intro m
    have : (addEv (updNode s n fun nd =>
        { nd with opts := f nd.opts, uptodate := false }) (.optsSig n)).nodes m
        = (updNode s n fun nd =>
          { nd with opts := f nd.opts, uptodate := false }).nodes m := rfl
    rw [this]
    exact notMemDeps_updNode s n
      (fun nd => { nd with opts := f nd.opts, uptodate := false })
      (fun _ => rfl) hdeps m
  have main := exec_run_completes emptyV compute g _ n s'
    (by rw [hAn]; exact hrun) (by rw [hAn]) hAdeps hex
  rw [hAn] at main
  exact main

/-- Witness for C4 at a concrete fresh node with a Nat option. -/
theorem updateOption_recomputes_synchronously_witness :
    ∃ s', updateOption 0 computeOpt 6 sysFreshNat 0 (fun _ => 7) = some s' ∧
      (s'.nodes 0).uptodate = true ∧
      (s'.nodes 0).data = some 7 := by
  have hsome : (updateOption 0 computeOpt 6 sysFreshNat 0
      (fun _ => 7)).isSome = true := by decide
  obtain ⟨s', hs⟩ := Option.isSome_iff_exists.mp hsome
  have main := updateOption_recomputes_synchronously 0 computeOpt 6 sysFreshNat
    0 (fun _ => 7) s' rfl rfl (fun m => by simp [sysFreshNat, freshSys, initNode]) hs
  refine ⟨s', hs, main.1, ?_⟩
  have hd := main.2.2.2.2
  simpa [sysFreshNat, freshSys, initNode, computeOpt] using hd
/-- C8: for every node and every value v, including v equal to the
current output, assigning v as the node's output stores v — with a null
value replaced by the stored empty dataset — and then unconditionally
fires the dataProcessed broadcast to dependents: the execution equals
store-then-broadcast by definition, and every completed call logs the
emit event, with no equality short-circuit (the statement quantifies
over every v, in particular the unchanged one). -/
theorem setData_normalizes_and_broadcasts (emptyV : V)
    (compute : Nat → O → Option V → Option V) (fuel : Nat) (s : Sys V O)
    (n : Nat) (v : Option V) :
    exec emptyV compute (fuel + 2) s (.setData n v)
      = exec emptyV compute (fuel + 1)
          (updNode s n fun nd => { nd with data := some (v.getD emptyV) })
          (.broadcastData n)
    ∧ ∀ s', exec emptyV compute (fuel + 2) s (.setData n v) = some s' →
        ∃ rest, s'.log = rest ++ (Ev.emit n :: s.log) := by
  refine ⟨exec_setData_unfold emptyV compute (fuel + 1) s n v, ?_⟩
  intro s' h
  rw [exec_setData_unfold, exec_broadcastData_unfold] at h
  obtain ⟨r, hr⟩ := (exec_frame emptyV compute _ _ _ _ h).1
  exact ⟨r, hr⟩

/-- Witness for C8 at a node whose current output already equals the
assigned value: the emit event is logged nonetheless. -/
theorem setData_normalizes_and_broadcasts_witness :
    ∃ s', exec 0 computeId (2 + 2) sysData5 (.setData 0 (some 5)) = some s' ∧
      ∃ rest, s'.log = rest ++ (Ev.emit 0 :: sysData5.log) := by
  have hsome : (exec 0 computeId (2 + 2) sysData5
      (.setData 0 (some 5))).isSome = true := by decide
  obtain ⟨s', hs⟩ := Option.isSome_iff_exists.mp hsome
  exact ⟨s', hs,
    (setData_normalizes_and_broadcasts 0 computeId 2 sysData5 0 (some 5)).2 s' hs⟩

/-- Helper projections of the connect step. -/
theorem connectNew_nodes_self (t : Sys V O) (n r : Nat) (hnr : r ≠ n) :
    (connectNew t n r).nodes n
      = { t.nodes n with inRef := some r, reqs := (t.nodes n).reqs ++ [r] } := by
  unfold connectNew
  rw [updNode_nodes_self, updNode_nodes_ne _ _ _ _ (fun h => hnr h.symm),
    updNode_nodes_self]

theorem connectNew_nodes_ref (t : Sys V O) (n r : Nat) (hnr : r ≠ n) :
    (connectNew t n r).nodes r
      = { t.nodes r with deps := (t.nodes r).deps ++ [n] } := by
  unfold connectNew
  rw [updNode_nodes_ne _ _ _ _ hnr, updNode_nodes_self,
    updNode_nodes_ne _ _ _ _ hnr]

theorem connectNew_nodes_other (t : Sys V O) (n r m : Nat) (h1 : m ≠ n)
    (h2 : m ≠ r) : (connectNew t n r).nodes m = t.nodes m := by
  unfold connectNew
  rw [updNode_nodes_ne _ _ _ _ h1, updNode_nodes_ne _ _ _ _ h2,
    updNode_nodes_ne _ _ _ _ h1]

theorem connectNew_log (t : Sys V O) (n r : Nat) :
    (connectNew t n r).log = t.log := rfl

/-- Helper: full evaluation of the dataRequested handshake issued at the
end of setSource, for a node with recompute-on-source-change disabled, a
previously empty request list, and a fresh upstream with no other
dependents: exactly one broadcast is emitted by the new upstream and its
current output is delivered into the slot. -/
theorem setSource_core (emptyV : V) (compute : Nat → O → Option V → Option V)
    (f : Nat) (t : Sys V O) (n r : Nat) (hnr : r ≠ n)
    (hus : (t.nodes n).updateOnSource = false)
    (htreqs : (t.nodes n).reqs = [])
    (htdr : (t.nodes r).deps = []) :
    exec emptyV compute (f + 4) (connectNew t n r)
        (.reqList (((connectNew t n r).nodes n).reqs))
      = some (updNode (addEv (connectNew t n r) (.emit r)) n
          fun nd => { nd with inData := (t.nodes r).data, uptodate := false }) := by
  have hreqs : ((connectNew t n r).nodes n).reqs = [r] := by
    rw [connectNew_nodes_self t n r hnr]
    show (t.nodes n).reqs ++ [r] = [r]
    rw [htreqs]
    rfl
  have hdeps : ((connectNew t n r).nodes r).deps = [n] := by
    rw [connectNew_nodes_ref t n r hnr]
    show (t.nodes r).deps ++ [n] = [n]
    rw [htdr]
    rfl
  have hdata : ((connectNew t n r).nodes r).data = (t.nodes r).data := by
    rw [connectNew_nodes_ref t n r hnr]
  have hflag : ((updNode (addEv (connectNew t n r) (.emit r)) n fun nd =>
      { nd with inData := (t.nodes r).data, uptodate := false }).nodes n).updateOnSource
      = (t.nodes n).updateOnSource := by
    rw [updNode_nodes_self]
    show ((connectNew t n r).nodes n).updateOnSource = _
    rw [connectNew_nodes_self t n r hnr]
  have h4 : f + 4 = (f + 3) + 1 := rfl
  have h3 : f + 3 = (f + 2) + 1 := rfl
  have h2 : f + 2 = (f + 1) + 1 := rfl
  have h1 : f + 1 = f + 1 := rfl
  rw [hreqs, h4, exec_reqList_cons_unfold, h3, exec_broadcastData_unfold,
    hdeps, hdata, h2, exec_emitList_cons_unfold, exec_setSourceData_unfold]
  rw [if_neg (by rw [hflag, hus]; simp)]
  simp only [Option.some_bind]
  rw [exec_emitList_nil_unfold]
  simp only [Option.some_bind]
  rw [exec_reqList_nil_unfold]

/-- Unfolding equation of setSource at the declared slot. -/
theorem setSource_input_unfold (emptyV : V)
    (compute : Nat → O → Option V → Option V) (fuel : Nat) (s : Sys V O)
    (n r : Nat) :
    setSource emptyV compute fuel s n "input" r =
    (exec emptyV compute fuel (connectNew (disconnectOld s n) n r)
        (.reqList (((connectNew (disconnectOld s n) n r).nodes n).reqs))).map
      fun s5 => (s5, none) := rfl

/-- Fields of every node preserved by the disconnect step. -/
theorem disconnectOld_preserves (s : Sys V O) (n : Nat) :
    ∀ m, ((disconnectOld s n).nodes m).updateOnSource
        = (s.nodes m).updateOnSource
      ∧ ((disconnectOld s n).nodes m).data = (s.nodes m).data
      ∧ ((disconnectOld s n).nodes m).inData = (s.nodes m).inData := by
  intro m
  unfold disconnectOld
  split
  · exact ⟨rfl, rfl, rfl⟩
  · rename_i old heq
    by_cases hmn : m = n
    · subst hmn
      rw [updNode_nodes_self]
      by_cases hmo : m = old
      · subst hmo; rw [updNode_nodes_self]; exact ⟨rfl, rfl, rfl⟩
      · rw [updNode_nodes_ne _ _ _ _ hmo]; exact ⟨rfl, rfl, rfl⟩
    · rw [updNode_nodes_ne _ _ _ _ hmn]
      by_cases hmo : m = old
      · subst hmo; rw [updNode_nodes_self]; exact ⟨rfl, rfl, rfl⟩
      · rw [updNode_nodes_ne _ _ _ _ hmo]; exact ⟨rfl, rfl, rfl⟩

/-- After the disconnect step, no node lists n as a dataProcessed
receiver, provided the wiring invariant held: any such link could only
come from the currently referenced upstream, which is exactly what gets
disconnected. -/
theorem disconnectOld_deps (s : Sys V O) (n : Nat)
    (hlink : ∀ m, n ∈ (s.nodes m).deps → (s.nodes n).inRef = some m) :
    ∀ m, n ∉ ((disconnectOld s n).nodes m).deps := by
  intro m
  unfold disconnectOld
  split
  · rename_i heq
    intro hmem
    have hl := hlink m hmem
    rw [heq] at hl
    exact absurd hl (by simp)
  · rename_i old heq
    by_cases hmn : m = n
    · rw [hmn, updNode_nodes_self]
      show n ∉ ((updNode s old fun nd =>
        { nd with deps := nd.deps.filter (· ≠ n) }).nodes n).deps
      by_cases hno : n = old
      · rw [← hno, updNode_nodes_self]
        show n ∉ (s.nodes n).deps.filter (· ≠ n)
        simp
      · rw [updNode_nodes_ne _ _ _ _ hno]
        intro hmem
        have hl := hlink n hmem
        rw [heq] at hl
        injection hl with hl
        exact hno hl.symm
    · rw [updNode_nodes_ne _ _ _ _ hmn]
      by_cases hmo : m = old
      · rw [hmo, updNode_nodes_self]
        show n ∉ (s.nodes old).deps.filter (· ≠ n)
        simp
      · rw [updNode_nodes_ne _ _ _ _ hmo]
        intro hmem
        have hl := hlink m hmem
        rw [heq] at hl
        injection hl with hl
        exact hmo hl.symm

/-- The disconnect step leaves each node's receiver list either intact
or with the n-links filtered out. -/
theorem disconnectOld_deps_cases (s : Sys V O) (n m : Nat) :
    ((disconnectOld s n).nodes m).deps = (s.nodes m).deps
    ∨ ((disconnectOld s n).nodes m).deps = (s.nodes m).deps.filter (· ≠ n) := by
  unfold disconnectOld
  split
  · exact Or.inl rfl
  · rename_i old heq
    by_cases hmn : m = n
    · subst hmn
      rw [updNode_nodes_self]
      by_cases hmo : m = old
      · subst hmo; rw [updNode_nodes_self]; exact Or.inr rfl
      · rw [updNode_nodes_ne _ _ _ _ hmo]; exact Or.inl rfl
    · rw [updNode_nodes_ne _ _ _ _ hmn]
      by_cases hmo : m = old
      · subst hmo; rw [updNode_nodes_self]; exact Or.inr rfl
      · rw [updNode_nodes_ne _ _ _ _ hmo]; exact Or.inl rfl

/-- After the disconnect step, under the single-slot wiring invariant
for the request list, node n's dataRequested connection list is empty. -/
theorem disconnectOld_reqs (s : Sys V O) (n : Nat)
    (hreq : (s.nodes n).reqs = ((s.nodes n).inRef).elim [] (fun o => [o])) :
    ((disconnectOld s n).nodes n).reqs = [] := by
  unfold disconnectOld
  split
  · rename_i heq
    rw [hreq, heq]
    rfl
  · rename_i old heq
    rw [updNode_nodes_self]
    show (((updNode s old fun nd =>
      { nd with deps := nd.deps.filter (· ≠ n) }).nodes n).reqs).filter (· ≠ old)
      = []
    have hr : ((updNode s old fun nd =>
        { nd with deps := nd.deps.filter (· ≠ n) }).nodes n).reqs
        = (s.nodes n).reqs := by
      by_cases hno : n = old
      · subst hno; rw [updNode_nodes_self]
      · rw [updNode_nodes_ne _ _ _ _ hno]
    rw [hr, hreq, heq]
    show ([old].filter (· ≠ old)) = []
    simp

/-- The disconnect step does not log events. -/
theorem disconnectOld_log (s : Sys V O) (n : Nat) :
    (disconnectOld s n).log = s.log := by
  unfold disconnectOld
  split
  · rfl
  · rfl

/-- C7: for a node n and its declared slot, setSource(slot, r) first
disconnects any previous upstream link(s) for the slot, connects the new
upstream r, and ends by issuing one data request; when the call returns,
exactly one dataProcessed link to n exists (the one from r, regardless
of prior wiring) together with exactly the one dataRequested link back,
and the slot's stored datum equals r's current output with r's output
unchanged.  Hypotheses: r is a distinct fresh upstream (no receivers
yet), the node's wiring satisfies the reachable-state invariant (links
to n only from its currently referenced upstream, request list matching
the reference), and n's recompute-on-source-change is disabled so the
delivery stores the datum without chaining a recomputation. -/
theorem setSource_rewires_and_populates (emptyV : V)
    (compute : Nat → O → Option V → Option V) (fuel : Nat) (s : Sys V O)
    (n r : Nat)
    (hnr : r ≠ n)
    (hus : (s.nodes n).updateOnSource = false)
    (hlink : ∀ m, n ∈ (s.nodes m).deps → (s.nodes n).inRef = some m)
    (hreq : (s.nodes n).reqs = ((s.nodes n).inRef).elim [] (fun o => [o]))
    (hdr : (s.nodes r).deps = [])
    (hf : 4 ≤ fuel) :
    ∃ s', setSource emptyV compute fuel s n "input" r = some (s', none)
      ∧ (s'.nodes n).inRef = some r
      ∧ (s'.nodes n).inData = (s.nodes r).data
      ∧ (s'.nodes n).reqs = [r]
      ∧ (∀ m, ((s'.nodes m).deps.count n) = if m = r then 1 else 0)
      ∧ (s'.nodes r).data = (s.nodes r).data
      ∧ s'.log = Ev.emit r :: s.log := by
  obtain ⟨f, rfl⟩ : ∃ f, fuel = f + 4 := ⟨fuel - 4, by omega⟩
  have hpres := disconnectOld_preserves s n
  have hdeps0 := disconnectOld_deps s n hlink
  have hreqs0 := disconnectOld_reqs s n hreq
  have htdr : ((disconnectOld s n).nodes r).deps = [] := by
    rcases disconnectOld_deps_cases s n r with h | h
    · rw [h, hdr]
    · rw [h, hdr]; rfl
  have hcore := setSource_core emptyV compute f (disconnectOld s n) n r hnr
    (by rw [(hpres n).1]; exact hus) hreqs0 htdr
  refine
    ⟨updNode (addEv (connectNew (disconnectOld s n) n r) (.emit r)) n
      (fun nd => { nd with inData := ((disconnectOld s n).nodes r).data, uptodate := false }),
     ?_, ?_, ?_, ?_, ?_, ?_, ?_⟩
  · rw [setSource_input_unfold, hcore]
    rfl
  · rw [updNode_nodes_self]
    show ((connectNew (disconnectOld s n) n r).nodes n).inRef = some r
    rw [connectNew_nodes_self _ _ _ hnr]
  · rw [updNode_nodes_self]
    show ((disconnectOld s n).nodes r).data = (s.nodes r).data
    exact (hpres r).2.1
  · rw [updNode_nodes_self]
    show ((connectNew (disconnectOld s n) n r).nodes n).reqs = [r]
    rw [connectNew_nodes_self _ _ _ hnr]
    show ((disconnectOld s n).nodes n).reqs ++ [r] = [r]
    rw [hreqs0]
    rfl
  · intro m
    by_cases hmr : m = r
    · rw [if_pos hmr, hmr]
      rw [updNode_nodes_ne _ _ _ _ hnr]
      have hA : ((addEv (connectNew (disconnectOld s n) n r) (.emit r)).nodes r)
          = (connectNew (disconnectOld s n) n r).nodes r := rfl
      rw [hA, connectNew_nodes_ref _ _ _ hnr]
      show (((disconnectOld s n).nodes r).deps ++ [n]).count n = 1
      rw [htdr]
      simp
    · rw [if_neg hmr]
      rw [List.count_eq_zero]
      by_cases hmn : m = n
      · rw [hmn, updNode_nodes_self]
        show n ∉ ((connectNew (disconnectOld s n) n r).nodes n).deps
        rw [connectNew_nodes_self _ _ _ hnr]
        show n ∉ ((disconnectOld s n).nodes n).deps
        exact hdeps0 n
      · rw [updNode_nodes_ne _ _ _ _ hmn]
        have hA : ((addEv (connectNew (disconnectOld s n) n r) (.emit r)).nodes m)
            = (connectNew (disconnectOld s n) n r).nodes m := rfl
        rw [hA, connectNew_nodes_other _ _ _ _ hmn hmr]
        exact hdeps0 m
  · rw [updNode_nodes_ne _ _ _ _ hnr]
    have : ((addEv (connectNew (disconnectOld s n) n r) (.emit r)).nodes r)
        = (connectNew (disconnectOld s n) n r).nodes r := rfl
    rw [this, connectNew_nodes_ref _ _ _ hnr]
    show ((disconnectOld s n).nodes r).data = (s.nodes r).data
    exact (hpres r).2.1
  · show (addEv (connectNew (disconnectOld s n) n r) (.emit r)).log
      = Ev.emit r :: s.log
    rw [addEv_log, connectNew_log, disconnectOld_log]

/-- Witness for C7 at a concrete two-node system: node 0 (with
recompute-on-source-change disabled) is wired to the fresh upstream
node 1, whose current output 9 immediately populates the slot. -/
theorem setSource_rewires_and_populates_witness :
    ∃ s', setSource 0 computeId 9 sysC7 0 "input" 1 = some (s', none)
      ∧ (s'.nodes 0).inRef = some 1
      ∧ (s'.nodes 0).inData = (sysC7.nodes 1).data
      ∧ (s'.nodes 0).reqs = [1]
      ∧ (∀ m, ((s'.nodes m).deps.count 0) = if m = 1 then 1 else 0)
      ∧ (s'.nodes 1).data = (sysC7.nodes 1).data
      ∧ s'.log = Ev.emit 1 :: sysC7.log :=
  setSource_rewires_and_populates 0 computeId 9 sysC7 0 1
    (by decide) rfl
    (fun m hm => absurd hm (by
      rcases eq_or_ne m 0 with h | h <;> simp [sysC7, initNode, h]))
    rfl rfl (by omega)

set_option maxHeartbeats 1000000 in
/-- C9: DataSelector.processData on an input grid whose selected field z
has axes [x, y], with a slices option restricting y to the single index
k and squeeze enabled, returns a dataset in which z's axis list is [x]
only, the y entry is removed entirely, and the values rank dropped from
2 to 1 — reduced by exactly one. -/
theorem dataSelector_slice_squeeze (V : Type) (nx ny k : Nat)
    (g gx gy : List Nat → V) (hx : 2 ≤ nx) (hk : k < ny) :
    ((ddGet (processData (sliceOpts k)
        (some (.gridD (gridInput nx ny g gx gy)))) "z").map (·.axes)) = some ["x"]
    ∧ ddHas (processData (sliceOpts k)
        (some (.gridD (gridInput nx ny g gx gy)))) "y" = false
    ∧ ((ddGet (processData (sliceOpts k)
        (some (.gridD (gridInput nx ny g gx gy)))) "z").map
        (fun en => rank en.values)) = some 1
    ∧ ((ddGet (gridInput nx ny g gx gy : DD V) "z").map
        (fun en => rank en.values)) = some 2 := by
  have h1 : min (k + 1) ny - k = 1 := by omega
  have h2 : ¬ nx < 2 := by omega
  have h3 : nx ≠ 1 := by omega
  refine ⟨?_, ?_, ?_, ?_⟩ <;>
    simp [processData, sliceOpts, gridInput, getGrid, ddGet, ddSet, ddDel,
      ddHas, slice1, applySlices, transposeA, squeezeA, squeezeShape, fillNone,
      squeezeLoop, rank, h1, h2, h3, show List.range 2 = [0, 1] from rfl]

/-- Witness for C9 at the concrete 2-by-2 grid sliced at y-index 0. -/
theorem dataSelector_slice_squeeze_witness :
    ((ddGet (processData (sliceOpts 0)
        (some (.gridD (gridInput 2 2 (fun _ => 0) (fun _ => 0)
          (fun _ => 0))))) "z").map (·.axes)) = some ["x"]
    ∧ ddHas (processData (sliceOpts 0)
        (some (.gridD (gridInput 2 2 (fun _ => 0) (fun _ => 0)
          (fun _ => 0))))) "y" = false
    ∧ ((ddGet (processData (sliceOpts 0)
        (some (.gridD (gridInput 2 2 (fun _ => 0) (fun _ => 0)
          (fun _ => 0))))) "z").map
        (fun en => rank en.values)) = some 1
    ∧ ((ddGet (gridInput 2 2 (fun _ => (0 : Nat)) (fun _ => 0)
        (fun _ => 0) : DD Nat) "z").map
        (fun en => rank en.values)) = some 2 :=
  dataSelector_slice_squeeze Nat 2 2 0 (fun _ => 0) (fun _ => 0) (fun _ => 0)
    (by omega) (by omega)

end Plottr
